import Mathlib

/-!
Verification of the content-schema registry of the climate-reaction website
(`src/content/config.ts`).

The source file declares, with the zod combinator library, one shared schema
(`baseFields`) and binds it — through one collection value `md` — to the five
collection names `explainers`, `roundups`, `actions`, `events`, `team`.

The embedding below mirrors the source declaration directly: `ZodSchema` is
the fragment of zod's type grammar the source uses (`z.string()`,
`z.array(·)`, `.optional()`, `.default(·)`), and `baseFields`, `md` and
`collections` are transcribed field for field from `config.ts`.  The
validation semantics of these combinators (the behaviour of
`z.object(...).parse` on a parsed-YAML front-matter mapping) is the zod
library's documented behaviour, which the source invokes but does not
contain: a field parses by its declared type with no coercion, `.optional()`
admits an absent field, `.default(d)` substitutes `d` for an absent field,
unknown keys are stripped, and a failed parse reports the offending field
names.  Errors are modelled as the list of offending field names (the field
component of a SchemaValidationError).
-/

/-- A parsed YAML scalar or sequence, as front-matter values arrive at the
validator.  `date` stands for a YAML timestamp scalar (js-yaml parses an
unquoted `2025-11-12` into a date object, not a string); its payload is an
abstract code for the instant. -/
inductive Yaml where
  | str (s : String)
  | num (n : Int)
  | bool (b : Bool)
  | date (d : Nat)
  | arr (xs : List Yaml)
  | null

/-- A raw front-matter mapping: string keys to parsed YAML values, in file
order.  Lookup takes the first binding of a key. -/
abbrev RawMapping := List (String × Yaml)

def lookupKey (raw : RawMapping) (k : String) : Option Yaml :=
  (raw.find? (fun p => p.1 == k)).map (·.2)

/-- The fragment of zod's schema grammar used by `config.ts`:
`z.string()`, `z.array(e)`, `t.optional()`, `t.default(d)`. -/
inductive ZodSchema where
  | zstring
  | zarray (elem : ZodSchema)
  | zoptional (inner : ZodSchema)
  | zdefault (inner : ZodSchema) (dflt : Yaml)

/-- The shared field declarations, transcribed from `baseFields` in
`src/content/config.ts`:
`title: z.string(), date: z.string().optional(), summary: z.string().optional(),
tags: z.array(z.string()).default([]), heroImage: z.string().optional(),
author: z.string().optional()`. -/
def baseFields : List (String × ZodSchema) :=
  [ ("title",     .zstring),
    ("date",      .zoptional .zstring),
    ("summary",   .zoptional .zstring),
    ("tags",      .zdefault (.zarray .zstring) (.arr [])),
    ("heroImage", .zoptional .zstring),
    ("author",    .zoptional .zstring) ]

/-- A collection definition (`defineCollection`): its type tag and its
object schema's field declarations. -/
structure Collection where
  type : String
  schema : List (String × ZodSchema)

/-- `const md = defineCollection({ type: "content", schema: z.object(baseFields) })`. -/
def md : Collection := { type := "content", schema := baseFields }

/-- `export const collections = { explainers: md, roundups: md, actions: md,
events: md, team: md }`: the registry binds all five names to the one
collection value `md`. -/
def collections : List (String × Collection) :=
  [ ("explainers", md),
    ("roundups",   md),
    ("actions",    md),
    ("events",     md),
    ("team",       md) ]

/-- Element-wise parsing of a sequence: every element must parse, and a
successful parse keeps the elements in order. -/
def parseElemsWith (f : Yaml → Except Unit Yaml) : List Yaml → Except Unit (List Yaml)
  | [] => .ok []
  | x :: xs =>
      match f x, parseElemsWith f xs with
      | .ok w, .ok ws => .ok (w :: ws)
      | _, _ => .error ()

/-- zod semantics of a schema applied to a present value: a string schema
accepts exactly strings (no coercion), an array schema accepts exactly
sequences whose every element its element schema accepts; `.optional()` and
`.default(·)` only alter the treatment of an absent field, so on a present
value they defer to the inner schema.  A successful parse returns the value
unchanged. -/
def parseVal : ZodSchema → Yaml → Except Unit Yaml
  | .zstring => fun v =>
      match v with
      | .str s => .ok (.str s)
      | _ => .error ()
  | .zoptional t => parseVal t
  | .zdefault t _ => parseVal t
  | .zarray e => fun v =>
      match v with
      | .arr xs =>
          match parseElemsWith (parseVal e) xs with
          | .ok ws => .ok (.arr ws)
          | .error u => .error u
      | _ => .error ()

/-- zod semantics of one object field: an absent field is admitted by
`.optional()` (left unset) and by `.default(d)` (set to `d`) and rejected by
any other schema; a present field parses by `parseVal`. -/
def parseField : ZodSchema → Option Yaml → Except Unit (Option Yaml)
  | .zoptional _, none => .ok none
  | .zdefault _ d, none => .ok (some d)
  | .zstring, none => .error ()
  | .zarray _, none => .error ()
  | t, some v => (parseVal t v).map some

/-- The validated record: each schema field name bound to its value, or to
`none` when an optional field without a default was absent. -/
abbrev ParsedDoc := List (String × Option Yaml)

def isErr : Except Unit (Option Yaml) → Bool
  | .error _ => true
  | .ok _ => false

def getOk : Except Unit (Option Yaml) → Option Yaml
  | .ok o => o
  | .error _ => none

/-- Each declared field paired with the outcome of parsing it out of the raw
mapping. -/
def fieldResults (shape : List (String × ZodSchema)) (raw : RawMapping) :
    List (String × Except Unit (Option Yaml)) :=
  shape.map (fun p => (p.1, parseField p.2 (lookupKey raw p.1)))

/-- The declared field names of a shape, in declaration order. -/
def fieldNames (shape : List (String × ZodSchema)) : List String :=
  shape.map Prod.fst

/-- zod semantics of `z.object(shape).parse`: every declared field is parsed
from the raw mapping; if any fields fail the whole parse fails, reporting
their names; otherwise the result holds exactly the declared fields (unknown
keys of the raw mapping are stripped). -/
def parseObject (shape : List (String × ZodSchema)) (raw : RawMapping) :
    Except (List String) ParsedDoc :=
  let results := fieldResults shape raw
  let errs := (results.filter (fun p => isErr p.2)).map Prod.fst
  if errs = [] then .ok (results.map (fun p => (p.1, getOk p.2)))
  else .error errs

/-- Validation of a raw front-matter mapping against a collection: the sole
API boundary.  `.error errs` models a SchemaValidationError citing the
fields `errs`. -/
def validate (c : Collection) (raw : RawMapping) : Except (List String) ParsedDoc :=
  parseObject c.schema raw

/-- Field access on a validated record. -/
def getField (d : ParsedDoc) (k : String) : Option (Option Yaml) :=
  (d.find? (fun p => p.1 == k)).map (·.2)

/-- The default value a schema declares for an absent field, if any. -/
def fieldDefault : ZodSchema → Option Yaml
  | .zdefault _ d => some d
  | _ => none

/-! ### Value-shape predicates -/

/-- Is a parsed YAML value a string scalar? -/
def isStr : Yaml → Bool
  | .str _ => true
  | _ => false

/-- Is a parsed YAML value a sequence of string scalars? -/
def isStringArray : Yaml → Bool
  | .arr xs => xs.all isStr
  | _ => false

/-- An acceptable binding for an optional string field: absent, or a string. -/
def optOk : Option Yaml → Bool
  | none => true
  | some v => isStr v

/-- An acceptable binding for the `tags` field: absent, or an array of strings. -/
def tagsOk : Option Yaml → Bool
  | none => true
  | some v => isStringArray v

/-! ### Behaviour of `parseVal` on the schemas `config.ts` declares -/

theorem parseVal_zstring_ok (v : Yaml) (h : isStr v = true) :
    parseVal .zstring v = .ok v := by
  cases v <;> simp_all [parseVal, isStr]

theorem parseVal_zstring_err (v : Yaml) (h : isStr v = false) :
    parseVal .zstring v = .error () := by
  cases v <;> simp_all [parseVal, isStr]

theorem parseElemsWith_str_ok (xs : List Yaml) (h : xs.all isStr = true) :
    parseElemsWith (parseVal .zstring) xs = .ok xs := by
  induction xs with
  | nil => simp [parseElemsWith]
  | cons x xs ih =>
      rw [List.all_cons, Bool.and_eq_true] at h
      simp [parseElemsWith, parseVal_zstring_ok x h.1, ih h.2]

theorem parseElemsWith_str_err (xs : List Yaml) (h : xs.all isStr = false) :
    parseElemsWith (parseVal .zstring) xs = .error () := by
  induction xs with
  | nil => simp [List.all_nil] at h
  | cons x xs ih =>
      rw [List.all_cons] at h
      cases hx : isStr x with
      | false => simp [parseElemsWith, parseVal_zstring_err x hx]
      | true =>
          have hxs : xs.all isStr = false := by simpa [hx] using h
          simp [parseElemsWith, parseVal_zstring_ok x hx, ih hxs]

theorem parseVal_zarray_arr (e : ZodSchema) (xs : List Yaml) :
    parseVal (.zarray e) (.arr xs) =
      match parseElemsWith (parseVal e) xs with
      | .ok ws => .ok (.arr ws)
      | .error u => .error u := rfl

theorem parseVal_strArray_ok (v : Yaml) (h : isStringArray v = true) :
    parseVal (.zarray .zstring) v = .ok v := by
  cases v with
  | arr xs =>
      have hxs : xs.all isStr = true := h
      rw [parseVal_zarray_arr, parseElemsWith_str_ok xs hxs]
  | str s => simp [isStringArray] at h
  | num n => simp [isStringArray] at h
  | bool b => simp [isStringArray] at h
  | date d => simp [isStringArray] at h
  | null => simp [isStringArray] at h

theorem parseVal_strArray_err (v : Yaml) (h : isStringArray v = false) :
    parseVal (.zarray .zstring) v = .error () := by
  cases v with
  | arr xs =>
      have hxs : xs.all isStr = false := h
      rw [parseVal_zarray_arr, parseElemsWith_str_err xs hxs]
  | str s => rfl
  | num n => rfl
  | bool b => rfl
  | date d => rfl
  | null => rfl

/-! ### Behaviour of `parseField` on those schemas -/

theorem parseField_some (t : ZodSchema) (v : Yaml) :
    parseField t (some v) = (parseVal t v).map some := by
  cases t <;> rfl

theorem parseField_optString_ok (o : Option Yaml) (h : optOk o = true) :
    parseField (.zoptional .zstring) o = .ok o := by
  cases o with
  | none => rfl
  | some v =>
      have hv : isStr v = true := h
      rw [parseField_some]
      rw [show parseVal (.zoptional .zstring) v = parseVal .zstring v from rfl,
          parseVal_zstring_ok v hv]
      rfl

theorem parseField_optString_err (v : Yaml) (h : isStr v = false) :
    parseField (.zoptional .zstring) (some v) = .error () := by
  rw [parseField_some]
  rw [show parseVal (.zoptional .zstring) v = parseVal .zstring v from rfl,
      parseVal_zstring_err v h]
  rfl

theorem parseField_title_ok (v : Yaml) (h : isStr v = true) :
    parseField .zstring (some v) = .ok (some v) := by
  rw [parseField_some, parseVal_zstring_ok v h]
  rfl

theorem parseField_title_err (v : Yaml) (h : isStr v = false) :
    parseField .zstring (some v) = .error () := by
  rw [parseField_some, parseVal_zstring_err v h]
  rfl

theorem parseField_tags_ok (o : Option Yaml) (h : tagsOk o = true) :
    parseField (.zdefault (.zarray .zstring) (.arr [])) o =
      .ok (some (o.getD (.arr []))) := by
  cases o with
  | none => rfl
  | some v =>
      have hv : isStringArray v = true := h
      rw [parseField_some]
      rw [show parseVal (.zdefault (.zarray .zstring) (.arr [])) v =
            parseVal (.zarray .zstring) v from rfl,
          parseVal_strArray_ok v hv]
      rfl

theorem parseField_tags_err (v : Yaml) (h : isStringArray v = false) :
    parseField (.zdefault (.zarray .zstring) (.arr [])) (some v) = .error () := by
  rw [parseField_some]
  rw [show parseVal (.zdefault (.zarray .zstring) (.arr [])) v =
        parseVal (.zarray .zstring) v from rfl,
      parseVal_strArray_err v h]
  rfl

/-! ### Shape of a successful validation -/

/-- When every field of the raw mapping that the schema looks at is
acceptably typed, validation succeeds and the record binds each field to the
supplied value, or to its default (`tags`), or to nothing (the optional
string fields). -/
theorem validate_md_ok_of (raw : RawMapping) (t : String)
    (ht : lookupKey raw "title" = some (.str t))
    (hd : optOk (lookupKey raw "date") = true)
    (hs : optOk (lookupKey raw "summary") = true)
    (htg : tagsOk (lookupKey raw "tags") = true)
    (hh : optOk (lookupKey raw "heroImage") = true)
    (ha : optOk (lookupKey raw "author") = true) :
    validate md raw = .ok
      [ ("title", some (.str t)),
        ("date", lookupKey raw "date"),
        ("summary", lookupKey raw "summary"),
        ("tags", some ((lookupKey raw "tags").getD (.arr []))),
        ("heroImage", lookupKey raw "heroImage"),
        ("author", lookupKey raw "author") ] := by
  have h1 : parseField .zstring (lookupKey raw "title") = .ok (some (.str t)) := by
    rw [ht]; exact parseField_title_ok _ rfl
  have h2 := parseField_optString_ok (lookupKey raw "date") hd
  have h3 := parseField_optString_ok (lookupKey raw "summary") hs
  have h4 := parseField_tags_ok (lookupKey raw "tags") htg
  have h5 := parseField_optString_ok (lookupKey raw "heroImage") hh
  have h6 := parseField_optString_ok (lookupKey raw "author") ha
  simp [validate, md, parseObject, fieldResults, baseFields,
        h1, h2, h3, h4, h5, h6, isErr, getOk]

/-! ### Shape of a failed validation -/

/-- If any declared field of a collection's schema rejects its binding in the
raw mapping, the whole validation fails and the error cites that field. -/
theorem validate_error_of_field (c : Collection) (raw : RawMapping)
    (k : String) (t : ZodSchema)
    (hk : (k, t) ∈ c.schema)
    (he : parseField t (lookupKey raw k) = .error ()) :
    ∃ errs, validate c raw = .error errs ∧ k ∈ errs := by
  have hmem : (k, (Except.error () : Except Unit (Option Yaml))) ∈
      fieldResults c.schema raw := by
    unfold fieldResults
    exact List.mem_map.mpr ⟨(k, t), hk, by simp [he]⟩
  have hfil : (k, (Except.error () : Except Unit (Option Yaml))) ∈
      (fieldResults c.schema raw).filter (fun p => isErr p.2) :=
    List.mem_filter.mpr ⟨hmem, rfl⟩
  have hks : k ∈ ((fieldResults c.schema raw).filter (fun p => isErr p.2)).map Prod.fst :=
    List.mem_map.mpr ⟨_, hfil, rfl⟩
  refine ⟨_, ?_, hks⟩
  simp only [validate, parseObject]
  rw [if_neg (List.ne_nil_of_mem hks)]

/-! ### A successful parse returns the supplied value unchanged -/

theorem parseElemsWith_id (f : Yaml → Except Unit Yaml)
    (hf : ∀ x w, f x = .ok w → w = x) :
    ∀ xs ws, parseElemsWith f xs = .ok ws → ws = xs := by
  intro xs
  induction xs with
  | nil => intro ws h; simpa [parseElemsWith] using h.symm
  | cons x xs ih =>
      intro ws h
      simp only [parseElemsWith] at h
      cases hx : f x with
      | error u => rw [hx] at h; exact absurd h (by simp)
      | ok w =>
          cases hxs : parseElemsWith f xs with
          | error u => rw [hx, hxs] at h; exact absurd h (by simp)
          | ok ws' =>
              rw [hx, hxs] at h
              have : w :: ws' = ws := by simpa using h
              rw [← this, hf x w hx, ih ws' hxs]

theorem parseVal_id (t : ZodSchema) :
    ∀ v w, parseVal t v = .ok w → w = v := by
  induction t with
  | zstring =>
      intro v w h
      cases v <;> simp_all [parseVal]
  | zoptional t ih => exact ih
  | zdefault t d ih => exact ih
  | zarray e ih =>
      intro v w h
      cases v with
      | arr xs =>
          rw [parseVal_zarray_arr] at h
          cases hxs : parseElemsWith (parseVal e) xs with
          | error u => rw [hxs] at h; exact absurd h (by simp)
          | ok ws =>
              rw [hxs] at h
              have hw : Yaml.arr ws = w := by simpa using h
              rw [← hw, parseElemsWith_id (parseVal e) ih xs ws hxs]
      | str s => exact absurd h (by simp [parseVal])
      | num n => exact absurd h (by simp [parseVal])
      | bool b => exact absurd h (by simp [parseVal])
      | date d => exact absurd h (by simp [parseVal])
      | null => exact absurd h (by simp [parseVal])

/-- A field that validates against a present binding keeps the bound value. -/
theorem parseField_ok_of_some (t : ZodSchema) (v : Yaml) (o : Option Yaml)
    (h : parseField t (some v) = .ok o) : o = some v := by
  rw [parseField_some] at h
  cases hv : parseVal t v with
  | error u => rw [hv] at h; exact absurd h (by simp [Except.map])
  | ok w =>
      rw [hv] at h
      simp only [Except.map] at h
      have : some w = o := by simpa using h
      rw [← this, parseVal_id t v w hv]

/-- A field that validates while absent from the mapping takes its declared
default (or stays unset when it has none). -/
theorem parseField_ok_of_none (t : ZodSchema) (o : Option Yaml)
    (h : parseField t none = .ok o) : o = fieldDefault t := by
  cases t with
  | zstring => exact absurd h (by simp [parseField])
  | zarray e => exact absurd h (by simp [parseField])
  | zoptional t => simpa [parseField, fieldDefault] using h.symm
  | zdefault t d => simpa [parseField, fieldDefault] using h.symm

/-! ### Keys of a validated record -/

theorem parsedDoc_keys (shape : List (String × ZodSchema)) (raw : RawMapping) :
    ((fieldResults shape raw).map (fun p => (p.1, getOk p.2))).map Prod.fst =
      fieldNames shape := by
  simp [fieldResults, fieldNames, List.map_map, Function.comp]

/-- Every name in the registry is bound to the one collection value `md`. -/
theorem mem_collections_eq_md (n : String) (c : Collection)
    (h : (n, c) ∈ collections) : c = md := by
  simp only [collections, List.mem_cons, List.not_mem_nil, or_false,
    Prod.mk.injEq] at h
  rcases h with ⟨-, rfl⟩ | ⟨-, rfl⟩ | ⟨-, rfl⟩ | ⟨-, rfl⟩ | ⟨-, rfl⟩ <;> rfl

/-! ### Claims -/

/-- Claim C1, counterexample: the claim says validation fails when `title`
is bound to an empty string, but `z.string()` places no lower bound on
length, so the mapping `{title: ""}` validates successfully into a full
record. -/
theorem C1_counterexample :
    validate md [("title", Yaml.str "")] =
      .ok [("title", some (.str "")), ("date", none), ("summary", none),
           ("tags", some (.arr [])), ("heroImage", none), ("author", none)] := rfl

/-- Claim C1, amended: for every raw front-matter mapping in which `title`
is absent, validation fails with an error citing the field `title` (a
present `title`, even the empty string, is not rejected for emptiness). -/
theorem C1_title_absent_fails (raw : RawMapping)
    (h : lookupKey raw "title" = none) :
    ∃ errs, validate md raw = .error errs ∧ "title" ∈ errs := by
  apply validate_error_of_field md raw "title" .zstring
  · exact List.Mem.head _
  · rw [h]; rfl

/-- Claim C1, witness: the empty mapping (spec's `{}` example) fails citing
`title`. -/
theorem C1_witness :
    ∃ errs, validate md [] = .error errs ∧ "title" ∈ errs :=
  C1_title_absent_fails [] rfl

/-- Claim C2: the mapping holding exactly a non-empty `title` validates into
the record with `tags` the empty sequence and `date`, `summary`,
`heroImage`, `author` unset. -/
theorem C2_title_only (s : String) (h : s ≠ "") :
    validate md [("title", Yaml.str s)] =
      .ok [("title", some (.str s)), ("date", none), ("summary", none),
           ("tags", some (.arr [])), ("heroImage", none), ("author", none)] :=
  validate_md_ok_of [("title", Yaml.str s)] s rfl rfl rfl rfl rfl rfl

/-- Claim C2, witness: at `{title: "X"}`. -/
theorem C2_witness :
    validate md [("title", Yaml.str "X")] =
      .ok [("title", some (.str "X")), ("date", none), ("summary", none),
           ("tags", some (.arr [])), ("heroImage", none), ("author", none)] :=
  C2_title_only "X" (by decide)

/-- Claim C3: any two names of the registry are bound to the same collection
value, hence to structurally identical schemas (same fields, types and
defaults). -/
theorem C3_shared_schema (n₁ n₂ : String) (c₁ c₂ : Collection)
    (h₁ : (n₁, c₁) ∈ collections) (h₂ : (n₂, c₂) ∈ collections) :
    c₁ = c₂ ∧ c₁.schema = c₂.schema := by
  rw [mem_collections_eq_md n₁ c₁ h₁, mem_collections_eq_md n₂ c₂ h₂]
  exact ⟨rfl, rfl⟩

/-- Claim C3, witness: at the pair `explainers`, `team`. -/
theorem C3_witness : md = md ∧ md.schema = md.schema :=
  C3_shared_schema "explainers" "team" md md (List.Mem.head _)
    (by simp [collections])

/-- Claim C5: a present `tags` binding that is not an array of strings makes
validation fail with an error citing the field `tags`. -/
theorem C5_bad_tags_fails (raw : RawMapping) (v : Yaml)
    (hv : lookupKey raw "tags" = some v) (h : isStringArray v = false) :
    ∃ errs, validate md raw = .error errs ∧ "tags" ∈ errs := by
  apply validate_error_of_field md raw "tags" (.zdefault (.zarray .zstring) (.arr []))
  · simp [md, baseFields]
  · rw [hv]; exact parseField_tags_err v h

/-- Claim C5, witness: at the spec's example `{title: "X", tags: "not-an-array"}`. -/
theorem C5_witness :
    ∃ errs,
      validate md [("title", Yaml.str "X"), ("tags", Yaml.str "not-an-array")] =
        .error errs ∧ "tags" ∈ errs :=
  C5_bad_tags_fails [("title", Yaml.str "X"), ("tags", Yaml.str "not-an-array")]
    (Yaml.str "not-an-array") rfl rfl

theorem all_isStr_map (ts : List String) : (ts.map Yaml.str).all isStr = true := by
  induction ts with
  | nil => rfl
  | cons t ts ih => simp [List.all_cons, isStr, ih]

/-- Claim C4, counterexample: a mapping with a valid `title` and `tags`
bound to a list of strings on which validation nevertheless fails — the
claim quantifies over every such mapping, but an ill-typed binding of
another field (here `date`) rejects the document. -/
theorem C4_counterexample :
    lookupKey [("title", Yaml.str "X"), ("tags", Yaml.arr [Yaml.str "a", Yaml.str "b"]),
        ("date", Yaml.num 1)] "title" = some (Yaml.str "X") ∧
    lookupKey [("title", Yaml.str "X"), ("tags", Yaml.arr [Yaml.str "a", Yaml.str "b"]),
        ("date", Yaml.num 1)] "tags" =
      some (Yaml.arr (["a", "b"].map Yaml.str)) ∧
    validate md [("title", Yaml.str "X"), ("tags", Yaml.arr [Yaml.str "a", Yaml.str "b"]),
        ("date", Yaml.num 1)] = .error ["date"] :=
  ⟨rfl, rfl, rfl⟩

/-- Claim C4, amended: for every raw mapping with a valid `title`, `tags`
bound to a list of strings, and each remaining schema field absent or bound
to a string, validation succeeds and the record's `tags` is that list
exactly — same elements, same order, duplicates kept. -/
theorem C4_tags_preserved (raw : RawMapping) (t : String) (ts : List String)
    (ht : lookupKey raw "title" = some (.str t))
    (htg : lookupKey raw "tags" = some (.arr (ts.map Yaml.str)))
    (hd : optOk (lookupKey raw "date") = true)
    (hs : optOk (lookupKey raw "summary") = true)
    (hh : optOk (lookupKey raw "heroImage") = true)
    (ha : optOk (lookupKey raw "author") = true) :
    ∃ d, validate md raw = .ok d ∧
      getField d "tags" = some (some (.arr (ts.map Yaml.str))) := by
  have htOk : tagsOk (lookupKey raw "tags") = true := by
    rw [htg]
    show isStringArray (.arr (ts.map Yaml.str)) = true
    show (ts.map Yaml.str).all isStr = true
    exact all_isStr_map ts
  refine ⟨_, validate_md_ok_of raw t ht hd hs htOk hh ha, ?_⟩
  simp [getField, List.find?, htg]

/-- Claim C4, witness: at the spec's example `{title: "X", tags: ["a","b"]}`. -/
theorem C4_witness :
    ∃ d, validate md [("title", Yaml.str "X"),
        ("tags", Yaml.arr [Yaml.str "a", Yaml.str "b"])] = .ok d ∧
      getField d "tags" = some (some (.arr (["a", "b"].map Yaml.str))) :=
  C4_tags_preserved [("title", Yaml.str "X"),
      ("tags", Yaml.arr [Yaml.str "a", Yaml.str "b"])]
    "X" ["a", "b"] rfl rfl rfl rfl rfl rfl

/-- Claim C7: validation is a pure function of the raw mapping — two runs on
the same mapping agree, record for record and error for error. -/
theorem C7_deterministic (c : Collection) (raw : RawMapping) :
    (∀ d₁ d₂, validate c raw = .ok d₁ → validate c raw = .ok d₂ → d₁ = d₂) ∧
    (∀ e₁ e₂, validate c raw = .error e₁ → validate c raw = .error e₂ → e₁ = e₂) := by
  constructor <;> intro a b h₁ h₂ <;> rw [h₁] at h₂ <;> simpa using h₂

/-- Claim C7, witness: two runs on `{title: "X"}` produce the same record. -/
theorem C7_witness :
    ([("title", some (Yaml.str "X")), ("date", none), ("summary", none),
      ("tags", some (Yaml.arr [])), ("heroImage", none), ("author", none)] : ParsedDoc) =
    [("title", some (Yaml.str "X")), ("date", none), ("summary", none),
      ("tags", some (Yaml.arr [])), ("heroImage", none), ("author", none)] :=
  (C7_deterministic md [("title", Yaml.str "X")]).1 _ _ rfl rfl

/-- Claim C8: no partial success — validation of any raw mapping either
returns a record carrying every declared field, or rejects the document
with a non-empty list of offending fields; nothing in between. -/
theorem C8_no_partial (raw : RawMapping) :
    (∃ d, validate md raw = .ok d ∧ d.map Prod.fst = fieldNames baseFields) ∨
    (∃ errs, validate md raw = .error errs ∧ errs ≠ []) := by
  simp only [validate, parseObject]
  split
  · exact Or.inl ⟨_, rfl, parsedDoc_keys md.schema raw⟩
  · next h => exact Or.inr ⟨_, rfl, h⟩

/-- Claim C6: a successful validation returns a record carrying all six
declared fields, each bound either to the value the mapping supplied for it
or, when the mapping omits it, to the field's declared default (`none` for
an optional field without one). -/
theorem C6_every_field_populated (raw : RawMapping) (d : ParsedDoc)
    (h : validate md raw = .ok d) :
    d.map Prod.fst = fieldNames baseFields ∧
    ∀ p ∈ d, ∃ t, (p.1, t) ∈ baseFields ∧
      ((lookupKey raw p.1 = none ∧ p.2 = fieldDefault t) ∨
       (∃ v, lookupKey raw p.1 = some v ∧ p.2 = some v)) := by
  simp only [validate, parseObject] at h
  split at h
  case isFalse => exact absurd h (by simp)
  case isTrue hnil =>
  have hdd : (fieldResults md.schema raw).map (fun p => (p.1, getOk p.2)) = d := by
    simpa using h
  subst hdd
  refine ⟨parsedDoc_keys md.schema raw, ?_⟩
  intro p hp
  obtain ⟨q, hq, hpq⟩ := List.mem_map.mp hp
  have hok : ¬ isErr q.2 = true := by
    intro hbad
    have hf : q ∈ (fieldResults md.schema raw).filter (fun p => isErr p.2) :=
      List.mem_filter.mpr ⟨hq, hbad⟩
    have : q.1 ∈ ((fieldResults md.schema raw).filter (fun p => isErr p.2)).map
        Prod.fst := List.mem_map.mpr ⟨q, hf, rfl⟩
    rw [hnil] at this
    exact absurd this (List.not_mem_nil _)
  simp only [fieldResults] at hq
  obtain ⟨ft, hft, hq'⟩ := List.mem_map.mp hq
  obtain ⟨k, t⟩ := ft
  subst hq'
  subst hpq
  refine ⟨t, hft, ?_⟩
  have hko : ∃ o, parseField t (lookupKey raw k) = .ok o := by
    cases hpf : parseField t (lookupKey raw k) with
    | ok o => exact ⟨o, rfl⟩
    | error u => exact absurd (by rw [hpf]; rfl) hok
  obtain ⟨o, ho⟩ := hko
  cases hl : lookupKey raw k with
  | none =>
      rw [hl] at ho
      left
      exact ⟨rfl, by rw [ho]; exact parseField_ok_of_none t o ho⟩
  | some v =>
      rw [hl] at ho
      right
      exact ⟨v, rfl, by rw [ho]; exact parseField_ok_of_some t v o ho⟩

/-- Claim C6, witness: at `{title: "X"}`. -/
theorem C6_witness :
    ([("title", some (Yaml.str "X")), ("date", none), ("summary", none),
        ("tags", some (Yaml.arr [])), ("heroImage", none),
        ("author", none)] : ParsedDoc).map Prod.fst = fieldNames baseFields ∧
    ∀ p ∈ ([("title", some (Yaml.str "X")), ("date", none), ("summary", none),
        ("tags", some (Yaml.arr [])), ("heroImage", none),
        ("author", none)] : ParsedDoc), ∃ t, (p.1, t) ∈ baseFields ∧
      ((lookupKey [("title", Yaml.str "X")] p.1 = none ∧ p.2 = fieldDefault t) ∨
       (∃ v, lookupKey [("title", Yaml.str "X")] p.1 = some v ∧ p.2 = some v)) :=
  C6_every_field_populated [("title", Yaml.str "X")] _ rfl

/-- Claim C9, counterexample: a mapping with a valid `title` and a key
(`keywords`) outside the schema's six field names on which validation
nevertheless fails — the claim quantifies over every such mapping, but an
ill-typed binding of a schema field (here `date`) rejects the document. -/
theorem C9_counterexample :
    lookupKey [("title", Yaml.str "X"), ("keywords", Yaml.arr [Yaml.str "ozone"]),
        ("date", Yaml.num 5)] "title" = some (Yaml.str "X") ∧
    validate md [("title", Yaml.str "X"), ("keywords", Yaml.arr [Yaml.str "ozone"]),
        ("date", Yaml.num 5)] = .error ["date"] :=
  ⟨rfl, rfl⟩

/-- Claim C9, amended: (1) for every raw mapping with a valid `title` and
every schema field absent or acceptably typed, validation succeeds — keys
outside the schema's six field names are silently dropped: the record binds
exactly the six declared names and yields nothing for any other key;
(2) unknown keys never cause a validation error: every cited field is one of
the schema's six names. -/
theorem C9_unknown_keys :
    (∀ raw t, lookupKey raw "title" = some (.str t) →
      optOk (lookupKey raw "date") = true →
      optOk (lookupKey raw "summary") = true →
      tagsOk (lookupKey raw "tags") = true →
      optOk (lookupKey raw "heroImage") = true →
      optOk (lookupKey raw "author") = true →
      ∃ d, validate md raw = .ok d ∧ d.map Prod.fst = fieldNames baseFields ∧
        ∀ k, k ∉ fieldNames baseFields → getField d k = none) ∧
    (∀ raw errs, validate md raw = .error errs →
      ∀ k ∈ errs, k ∈ fieldNames baseFields) := by
  constructor
  · intro raw t ht hd hs htg hh ha
    refine ⟨_, validate_md_ok_of raw t ht hd hs htg hh ha, rfl, ?_⟩
    intro k hk
    simp only [fieldNames, baseFields, List.map_cons, List.map_nil,
      List.mem_cons, List.not_mem_nil, or_false] at hk
    push_neg at hk
    obtain ⟨h1, h2, h3, h4, h5, h6⟩ := hk
    have e1 : ("title" == k) = false := beq_eq_false_iff_ne.mpr (Ne.symm h1)
    have e2 : ("date" == k) = false := beq_eq_false_iff_ne.mpr (Ne.symm h2)
    have e3 : ("summary" == k) = false := beq_eq_false_iff_ne.mpr (Ne.symm h3)
    have e4 : ("tags" == k) = false := beq_eq_false_iff_ne.mpr (Ne.symm h4)
    have e5 : ("heroImage" == k) = false := beq_eq_false_iff_ne.mpr (Ne.symm h5)
    have e6 : ("author" == k) = false := beq_eq_false_iff_ne.mpr (Ne.symm h6)
    simp [getField, List.find?, e1, e2, e3, e4, e5, e6]
  · intro raw errs h k hk
    simp only [validate, parseObject] at h
    split at h
    · exact absurd h (by simp)
    · have herrs : ((fieldResults md.schema raw).filter
          (fun p => isErr p.2)).map Prod.fst = errs := by simpa using h
      rw [← herrs] at hk
      obtain ⟨a, ha, rfl⟩ := List.mem_map.mp hk
      have ha' : a ∈ fieldResults md.schema raw := (List.mem_filter.mp ha).1
      simp only [fieldResults] at ha'
      obtain ⟨b, hb, hab⟩ := List.mem_map.mp ha'
      rw [← hab]
      exact List.mem_map.mpr ⟨b, hb, rfl⟩

/-- Claim C9, witness: a mapping carrying the unknown key `blog_built`
validates, and the record yields nothing for that key. -/
theorem C9_witness :
    ∃ d, validate md [("title", Yaml.str "X"), ("blog_built", Yaml.bool true)] =
        .ok d ∧ d.map Prod.fst = fieldNames baseFields ∧
      ∀ k, k ∉ fieldNames baseFields → getField d k = none :=
  C9_unknown_keys.1 [("title", Yaml.str "X"), ("blog_built", Yaml.bool true)]
    "X" rfl rfl rfl rfl rfl rfl

/-- Claim C10: no coercion on the string-typed fields — a binding of
`title`, `date`, `summary`, `heroImage` or `author` to any non-string value
(a number, a YAML-parsed date object, a sequence, null, ...) makes
validation fail with an error citing that field. -/
theorem C10_no_coercion (raw : RawMapping) (k : String) (v : Yaml)
    (hk : k ∈ ["title", "date", "summary", "heroImage", "author"])
    (hv : lookupKey raw k = some v) (hs : isStr v = false) :
    ∃ errs, validate md raw = .error errs ∧ k ∈ errs := by
  fin_cases hk
  · exact validate_error_of_field md raw "title" .zstring (List.Mem.head _)
      (by rw [hv]; exact parseField_title_err v hs)
  · exact validate_error_of_field md raw "date" (.zoptional .zstring)
      (by simp [md, baseFields]) (by rw [hv]; exact parseField_optString_err v hs)
  · exact validate_error_of_field md raw "summary" (.zoptional .zstring)
      (by simp [md, baseFields]) (by rw [hv]; exact parseField_optString_err v hs)
  · exact validate_error_of_field md raw "heroImage" (.zoptional .zstring)
      (by simp [md, baseFields]) (by rw [hv]; exact parseField_optString_err v hs)
  · exact validate_error_of_field md raw "author" (.zoptional .zstring)
      (by simp [md, baseFields]) (by rw [hv]; exact parseField_optString_err v hs)

/-- Claim C10, witness: a YAML-parsed date object bound to `date` is
rejected citing `date`, not coerced to a string. -/
theorem C10_witness :
    ∃ errs, validate md [("title", Yaml.str "X"), ("date", Yaml.date 0)] =
        .error errs ∧ "date" ∈ errs :=
  C10_no_coercion [("title", Yaml.str "X"), ("date", Yaml.date 0)] "date"
    (Yaml.date 0) (by simp) rfl rfl
